import Mathlib

/-!
Verification of the decision core of the AI-Based-Traffic-Management repository.

The definitions below are shallow embeddings of the Python source:
* `classify_density` embeds `WebTrafficProcessor._classify_density`
  (web_processor.py, lines 247-264);
* `SIGNAL_TIMINGS`, `DENSITY_PRIORITY` and `dictGet` embed the configuration
  tables of src/config.py together with Python's `dict.get(key, default)`;
* `calculate_optimal_sequence` embeds
  `WebTrafficProcessor._calculate_optimal_sequence` (web_processor.py,
  lines 220-245): Python's `sorted(items, key=..., reverse=True)` is a stable
  sort by the descending key, which is computed by `List.insertionSort` with
  the total preorder `seqGE`;
* `generate_signal_recommendations` embeds
  `WebTrafficProcessor._generate_signal_recommendations` (lines 188-218);
* `assign_tracking_id`, `cleanup_tracks` and `processDetections` embed the
  tracker of `VehicleDetector` (src/vehicle_detector.py, lines 106-170).

Python integers are modelled by `ℤ` (vehicle counts, pixel coordinates) or
`ℕ` (track identities, the identity counter), wall-clock times by `ℚ`, and
density levels by the `String` values the source actually passes around.
-/

/-- The four intersection approaches.  The source uses the strings
"NORTH", "SOUTH", "EAST", "WEST" as dictionary keys drawn from this
closed set. -/
inductive Direction where
  | NORTH
  | SOUTH
  | EAST
  | WEST
deriving DecidableEq, Repr

/-- Per-direction traffic summary entry, as built by
`WebTrafficProcessor.aggregate_results`: a vehicle count and a density
level string. -/
structure DirData where
  count : ℤ
  density : String
deriving DecidableEq, Repr

/-- Embeds `WebTrafficProcessor._classify_density` (web_processor.py
lines 247-264).  The source takes a Python int, so the domain is `ℤ`. -/
def classify_density (vehicle_count : ℤ) : String :=
  if vehicle_count ≤ 5 then "LOW"
  else if vehicle_count ≤ 15 then "MEDIUM"
  else if vehicle_count ≤ 25 then "HIGH"
  else "CRITICAL"

/-- One entry of the `SIGNAL_TIMINGS` table of src/config.py
(green, yellow, min_green, in seconds). -/
structure Timing where
  green : ℕ
  yellow : ℕ
  min_green : ℕ
deriving DecidableEq, Repr

/-- The `'LOW'` entry of `config.SIGNAL_TIMINGS`. -/
def lowTiming : Timing := ⟨15, 3, 10⟩

/-- Embeds `config.SIGNAL_TIMINGS` (src/config.py lines 51-72) as an
association list in the source's insertion order. -/
def SIGNAL_TIMINGS : List (String × Timing) :=
  [("LOW", lowTiming), ("MEDIUM", ⟨30, 3, 20⟩), ("HIGH", ⟨45, 3, 30⟩),
   ("CRITICAL", ⟨60, 3, 40⟩)]

/-- Embeds the `density_priority` dictionary built inside
`_calculate_optimal_sequence` (web_processor.py lines 231-236). -/
def DENSITY_PRIORITY : List (String × ℕ) :=
  [("CRITICAL", 4), ("HIGH", 3), ("MEDIUM", 2), ("LOW", 1)]

/-- Python's `dict.get(k, default)` on an association list with unique keys:
the first entry whose key equals `k`, else the default. -/
def dictGet {α : Type} : List (String × α) → String → α → α
  | [], _, d => d
  | p :: rest, k, d => if k = p.1 then p.2 else dictGet rest k d

/-- `config.SIGNAL_TIMINGS.get(density, config.SIGNAL_TIMINGS['LOW'])`
as used at web_processor.py line 204. -/
def signalTimingsGet (density : String) : Timing :=
  dictGet SIGNAL_TIMINGS density lowTiming

/-- `density_priority.get(x[1]['density'], 0)` as used at
web_processor.py line 241. -/
def densityPriorityGet (density : String) : ℕ :=
  dictGet DENSITY_PRIORITY density 0

/-- The sort key `(density_priority.get(density, 0), count)` of
web_processor.py line 241. -/
def seqKey (e : Direction × DirData) : ℕ × ℤ :=
  (densityPriorityGet e.2.density, e.2.count)

/-- Lexicographic order on the sort keys. -/
def keyLE (x y : ℕ × ℤ) : Prop :=
  x.1 < y.1 ∨ (x.1 = y.1 ∧ x.2 ≤ y.2)

instance keyLE_dec (x y : ℕ × ℤ) : Decidable (keyLE x y) := by
  unfold keyLE
  infer_instance

/-- `seqGE a b` holds when entry `a` may come no later than entry `b` in
the output of `sorted(..., key=seqKey, reverse=True)`: the key of `a` is
lexicographically at least the key of `b`. -/
def seqGE (a b : Direction × DirData) : Prop :=
  keyLE (seqKey b) (seqKey a)

instance seqGE_dec : DecidableRel seqGE := fun a b => keyLE_dec (seqKey b) (seqKey a)

instance seqGE_total : IsTotal (Direction × DirData) seqGE :=
  ⟨fun a b => by
    unfold seqGE keyLE
    omega⟩

instance seqGE_trans : IsTrans (Direction × DirData) seqGE :=
  ⟨fun a b c hab hbc => by
    unfold seqGE keyLE at hab hbc ⊢
    omega⟩

/-- Embeds `WebTrafficProcessor._calculate_optimal_sequence`
(web_processor.py lines 220-245).  The traffic summary is an association
list in the dictionary's insertion order; Python's `sorted` with
`reverse=True` is the stable sort by descending key, which
`List.insertionSort` computes for the total preorder `seqGE`. -/
def calculate_optimal_sequence (ta : List (Direction × DirData)) : List Direction :=
  (List.insertionSort seqGE ta).map Prod.fst

/-- One per-direction recommendation record as assembled at
web_processor.py lines 206-212. -/
structure Recommendation where
  density_level : String
  vehicle_count : ℤ
  green_duration : ℕ
  yellow_duration : ℕ
  total_duration : ℕ
deriving DecidableEq, Repr

/-- The per-direction body of the loop at web_processor.py lines 200-212. -/
def mkRecommendation (data : DirData) : Recommendation :=
  let timing := signalTimingsGet data.density
  ⟨data.density, data.count, timing.green, timing.yellow,
   timing.green + timing.yellow⟩

/-- Embeds `WebTrafficProcessor._generate_signal_recommendations`
(web_processor.py lines 188-218): the per-direction records, in input
order, together with the planner's ordered sequence. -/
def generate_signal_recommendations (ta : List (Direction × DirData)) :
    List (Direction × Recommendation) × List Direction :=
  (ta.map (fun e => (e.1, mkRecommendation e.2)), calculate_optimal_sequence ta)

/-- Claim C1: for every non-negative integer count, `classify_density`
returns LOW when count ≤ 5, MEDIUM when 6 ≤ count ≤ 15, HIGH when
16 ≤ count ≤ 25 and CRITICAL when count ≥ 26; in particular the exact
boundary values 0, 5, 6, 15, 16, 25 and 26 classify as stated. -/
theorem classify_density_boundaries (n : ℤ) (hn : 0 ≤ n) :
    (n ≤ 5 → classify_density n = "LOW") ∧
    (6 ≤ n → n ≤ 15 → classify_density n = "MEDIUM") ∧
    (16 ≤ n → n ≤ 25 → classify_density n = "HIGH") ∧
    (26 ≤ n → classify_density n = "CRITICAL") ∧
    (classify_density 0 = "LOW" ∧ classify_density 5 = "LOW" ∧
     classify_density 6 = "MEDIUM" ∧ classify_density 15 = "MEDIUM" ∧
     classify_density 16 = "HIGH" ∧ classify_density 25 = "HIGH" ∧
     classify_density 26 = "CRITICAL") := by
  refine ⟨fun h => ?_, fun h1 h2 => ?_, fun h1 h2 => ?_, fun h => ?_, by decide⟩
  · unfold classify_density
    rw [if_pos h]
  · unfold classify_density
    rw [if_neg (by omega), if_pos h2]
  · unfold classify_density
    rw [if_neg (by omega), if_neg (by omega), if_pos h2]
  · unfold classify_density
    rw [if_neg (by omega), if_neg (by omega), if_neg (by omega)]

/-- Witness for C1 at count 3. -/
theorem classify_density_boundaries_witness : classify_density 3 = "LOW" :=
  (classify_density_boundaries 3 (by norm_num)).1 (by norm_num)

/-- If a (density, timing) pair appears in the `SIGNAL_TIMINGS` table, the
`dict.get` lookup returns exactly that timing (the keys are distinct). -/
theorem signalTimingsGet_eq {d : String} {t : Timing} (h : (d, t) ∈ SIGNAL_TIMINGS) :
    signalTimingsGet d = t := by
  simp only [SIGNAL_TIMINGS, List.mem_cons, List.not_mem_nil, or_false,
    Prod.mk.injEq] at h
  rcases h with ⟨h1, h2⟩ | ⟨h1, h2⟩ | ⟨h1, h2⟩ | ⟨h1, h2⟩ <;> subst h1 <;> subst h2 <;> rfl

/-- Claim C2: for every non-empty traffic summary, the planner returns a
permutation of exactly the directions present, ordered by density priority
(CRITICAL > HIGH > MEDIUM > LOW) descending and then by raw vehicle count
descending; on {N:(CRITICAL,30), S:(LOW,2), E:(HIGH,10), W:(MEDIUM,8)} the
output is [NORTH, EAST, WEST, SOUTH]. -/
theorem optimal_sequence_orders_by_priority (ta : List (Direction × DirData))
    (hne : ta ≠ []) :
    (calculate_optimal_sequence ta).Perm (ta.map Prod.fst) ∧
    (∃ entries : List (Direction × DirData),
      entries.Perm ta ∧
      calculate_optimal_sequence ta = entries.map Prod.fst ∧
      entries.Pairwise (fun a b =>
        densityPriorityGet b.2.density < densityPriorityGet a.2.density ∨
        (densityPriorityGet b.2.density = densityPriorityGet a.2.density ∧
         b.2.count ≤ a.2.count))) ∧
    calculate_optimal_sequence
      [(Direction.NORTH, ⟨30, "CRITICAL"⟩), (Direction.SOUTH, ⟨2, "LOW"⟩),
       (Direction.EAST, ⟨10, "HIGH"⟩), (Direction.WEST, ⟨8, "MEDIUM"⟩)] =
      [Direction.NORTH, Direction.EAST, Direction.WEST, Direction.SOUTH] := by
  refine ⟨(List.perm_insertionSort seqGE ta).map Prod.fst,
    ⟨List.insertionSort seqGE ta, List.perm_insertionSort seqGE ta, rfl, ?_⟩,
    by decide⟩
  have h := List.sorted_insertionSort seqGE ta
  exact List.Pairwise.imp (fun hab => hab) h

/-- Witness for C2 on a singleton summary. -/
theorem optimal_sequence_orders_by_priority_witness :
    (calculate_optimal_sequence [(Direction.EAST, ⟨4, "LOW"⟩)]).Perm
      [Direction.EAST] :=
  (optimal_sequence_orders_by_priority [(Direction.EAST, ⟨4, "LOW"⟩)]
    (by decide)).1

/-- Claim C3 counterexample: two summaries equal as mappings (one the
permutation of the other) whose entries tie on both density level and
count produce different orders, each following its own input order, so
the planner is not a function of the mapping and ties are not broken by
a fixed Direction enumeration order. -/
theorem optimal_sequence_mapping_counterexample :
    ([(Direction.NORTH, (⟨2, "LOW"⟩ : DirData)), (Direction.SOUTH, ⟨2, "LOW"⟩)].Perm
       [(Direction.SOUTH, (⟨2, "LOW"⟩ : DirData)), (Direction.NORTH, ⟨2, "LOW"⟩)]) ∧
    calculate_optimal_sequence
        [(Direction.NORTH, ⟨2, "LOW"⟩), (Direction.SOUTH, ⟨2, "LOW"⟩)] =
      [Direction.NORTH, Direction.SOUTH] ∧
    calculate_optimal_sequence
        [(Direction.SOUTH, ⟨2, "LOW"⟩), (Direction.NORTH, ⟨2, "LOW"⟩)] =
      [Direction.SOUTH, Direction.NORTH] ∧
    ([Direction.NORTH, Direction.SOUTH] ≠ [Direction.SOUTH, Direction.NORTH]) :=
  ⟨List.Perm.swap _ _ _, by decide, by decide, by decide⟩

/-- Claim C3 amended: the planner is a deterministic function of the
supplied entry sequence, and two entries that tie on both density priority
and count keep their input order in the output (Python's sort is stable),
rather than being reordered to a fixed Direction enumeration order. -/
theorem optimal_sequence_input_order_ties (ta : List (Direction × DirData))
    (a b : Direction × DirData) (hkey : seqKey a = seqKey b)
    (hsub : List.Sublist [a, b] ta) :
    List.Sublist [a, b] (List.insertionSort seqGE ta) ∧
    List.Sublist [a.1, b.1] (calculate_optimal_sequence ta) := by
  have hab : seqGE a b := by
    rw [seqGE, hkey]
    exact Or.inr ⟨rfl, le_refl _⟩
  have h1 := List.pair_sublist_insertionSort hab hsub
  exact ⟨h1, by simpa [calculate_optimal_sequence] using h1.map Prod.fst⟩

/-- Witness for the amended C3 on a concrete tied pair. -/
theorem optimal_sequence_input_order_ties_witness :
    List.Sublist [Direction.WEST, Direction.EAST] (calculate_optimal_sequence
      [(Direction.WEST, ⟨2, "LOW"⟩), (Direction.EAST, ⟨2, "LOW"⟩)]) :=
  (optimal_sequence_input_order_ties
    [(Direction.WEST, ⟨2, "LOW"⟩), (Direction.EAST, ⟨2, "LOW"⟩)]
    (Direction.WEST, ⟨2, "LOW"⟩) (Direction.EAST, ⟨2, "LOW"⟩)
    (by decide) (List.Sublist.refl _)).2

/-- Claim C7: for every non-empty per-direction input, aggregation
produces a recommendation record for exactly the directions present,
whose green and yellow durations are those of the timing table entry
keyed by that direction's density level, with total = green + yellow,
and it carries the planner's ordered sequence. -/
theorem recommendations_cover_directions (ta : List (Direction × DirData))
    (hne : ta ≠ []) :
    (generate_signal_recommendations ta).1.map Prod.fst = ta.map Prod.fst ∧
    (generate_signal_recommendations ta).2 = calculate_optimal_sequence ta ∧
    ∀ e ∈ ta, ∃ r : Recommendation,
      ((e.1, r) ∈ (generate_signal_recommendations ta).1 ∧
       (∀ t : Timing, (e.2.density, t) ∈ SIGNAL_TIMINGS →
          r.green_duration = t.green ∧ r.yellow_duration = t.yellow) ∧
       r.total_duration = r.green_duration + r.yellow_duration) := by
  refine ⟨by simp [generate_signal_recommendations], rfl, fun e he => ?_⟩
  refine ⟨mkRecommendation e.2, List.mem_map_of_mem _ he, fun t ht => ?_, rfl⟩
  have hst := signalTimingsGet_eq ht
  constructor
  · show (signalTimingsGet e.2.density).green = t.green
    rw [hst]
  · show (signalTimingsGet e.2.density).yellow = t.yellow
    rw [hst]

/-- Witness for C7 with a single HIGH direction. -/
theorem recommendations_cover_directions_witness :
    (generate_signal_recommendations [(Direction.SOUTH, ⟨18, "HIGH"⟩)]).1.map
      Prod.fst = [Direction.SOUTH] :=
  (recommendations_cover_directions [(Direction.SOUTH, ⟨18, "HIGH"⟩)]
    (by decide)).1

/-- Claim C8 counterexample: a density value outside the four
DensityLevel names is not rejected; the timing lookup silently produces
the LOW timings (green 15, yellow 3) and the planner assigns it
priority 0. -/
theorem unknown_density_defaults_counterexample :
    (generate_signal_recommendations [(Direction.NORTH, ⟨7, "BOGUS"⟩)]).1 =
      [(Direction.NORTH, ⟨"BOGUS", 7, 15, 3, 18⟩)] ∧
    densityPriorityGet "BOGUS" = 0 := by
  decide

/-- Claim C8 amended: for any density value that is not one of the four
DensityLevel names, the density-to-timing lookup silently falls back to
the LOW timings and the planner's priority lookup falls back to 0; the
input is not rejected. -/
theorem unknown_density_silently_defaults (d : String)
    (h : d ∉ ["LOW", "MEDIUM", "HIGH", "CRITICAL"]) (count : ℤ) :
    signalTimingsGet d = lowTiming ∧ densityPriorityGet d = 0 ∧
    mkRecommendation ⟨count, d⟩ =
      ⟨d, count, lowTiming.green, lowTiming.yellow,
       lowTiming.green + lowTiming.yellow⟩ := by
  simp only [List.mem_cons, List.not_mem_nil, or_false, not_or] at h
  obtain ⟨h1, h2, h3, h4⟩ := h
  have ht : signalTimingsGet d = lowTiming := by
    simp [signalTimingsGet, SIGNAL_TIMINGS, dictGet, h1, h2, h3, h4]
  have hp : densityPriorityGet d = 0 := by
    simp [densityPriorityGet, DENSITY_PRIORITY, dictGet, h1, h2, h3, h4]
  refine ⟨ht, hp, ?_⟩
  simp [mkRecommendation, ht]

/-- Witness for the amended C8 at the density string "BOGUS2". -/
theorem unknown_density_silently_defaults_witness :
    signalTimingsGet "BOGUS2" = lowTiming :=
  (unknown_density_silently_defaults "BOGUS2" (by decide) 0).1

/-- Claim C9 counterexample: a negative count is not rejected; the code
returns the density level LOW for count -1. -/
theorem negative_count_counterexample :
    classify_density (-1) = "LOW" ∧
    "LOW" ∈ ["LOW", "MEDIUM", "HIGH", "CRITICAL"] := by
  decide

/-- Claim C9 amended: a negative vehicle count is never rejected; for
every integer count < 0 the classifier silently returns LOW through the
same branch as counts ≤ 5. -/
theorem negative_count_returns_low (c : ℤ) (h : c < 0) :
    classify_density c = "LOW" := by
  unfold classify_density
  rw [if_pos (by omega)]

/-- Witness for the amended C9 at count -2. -/
theorem negative_count_returns_low_witness : classify_density (-2) = "LOW" :=
  negative_count_returns_low (-2) (by norm_num)

/-- A live track as stored in `VehicleDetector.tracked_vehicles`
(src/vehicle_detector.py lines 140-156): last-known center and bounding
box, the frames_missing field (always written as 0 by the source) and
the last-seen wall-clock time. -/
structure Track where
  center : ℤ × ℤ
  bbox : List ℤ
  frames_missing : ℕ
  last_seen : ℚ
deriving DecidableEq, Repr

/-- The fields of an incoming detection used by the tracker. -/
structure Detection where
  center : ℤ × ℤ
  bbox : List ℤ
deriving DecidableEq, Repr

/-- Tracker state: `tracked_vehicles` as an association list in Python
dict insertion order, plus the `next_vehicle_id` counter. -/
structure DetectorState where
  tracked_vehicles : List (ℕ × Track)
  next_vehicle_id : ℕ
deriving DecidableEq, Repr

/-- The tracker state of a fresh `VehicleDetector` instance. -/
def initDetectorState : DetectorState := ⟨[], 0⟩

/-- `config.TRACKING_MAX_DISTANCE` (pixels, src/config.py line 125). -/
def TRACKING_MAX_DISTANCE : ℤ := 50

/-- `config.TRACKING_MAX_FRAMES_MISSING` (src/config.py line 126). -/
def TRACKING_MAX_FRAMES_MISSING : ℕ := 10

/-- The eviction threshold computed at vehicle_detector.py line 166:
`TRACKING_MAX_FRAMES_MISSING / 30` seconds, with Python true division. -/
def evictionWindow : ℚ := (TRACKING_MAX_FRAMES_MISSING : ℚ) / 30

/-- Squared Euclidean distance between two integer centers.  The source
compares `sqrt(dx**2 + dy**2)` against 50 and against the running
minimum; since sqrt is monotone on nonnegative reals, those comparisons
are equivalent to the corresponding comparisons of the squared
distances, which stay in `ℤ`. -/
def dist2 (a b : ℤ × ℤ) : ℤ := (a.1 - b.1) ^ 2 + (a.2 - b.2) ^ 2

/-- One iteration of the matching loop at vehicle_detector.py lines
124-135: the accumulator holds the best (identity, squared distance)
found so far, and a track replaces it when its distance is below the
50-pixel threshold and strictly below the running minimum. -/
def matchStep (c : ℤ × ℤ) (acc : Option (ℕ × ℤ)) (p : ℕ × Track) :
    Option (ℕ × ℤ) :=
  match acc with
  | none =>
      if dist2 c p.2.center < TRACKING_MAX_DISTANCE ^ 2 then
        some (p.1, dist2 c p.2.center)
      else none
  | some q =>
      if dist2 c p.2.center < TRACKING_MAX_DISTANCE ^ 2 ∧
         dist2 c p.2.center < q.2 then
        some (p.1, dist2 c p.2.center)
      else some q

/-- Python dict assignment `self.tracked_vehicles[matched_id] = {...}`
on an existing key: the value is replaced in place, the position kept. -/
def updateAssoc (l : List (ℕ × Track)) (i : ℕ) (t : Track) :
    List (ℕ × Track) :=
  l.map (fun p => if p.1 = i then (p.1, t) else p)

/-- Embeds `VehicleDetector._assign_tracking_id`
(vehicle_detector.py lines 106-157). -/
def assign_tracking_id (s : DetectorState) (det : Detection) (now : ℚ) :
    ℕ × DetectorState :=
  match s.tracked_vehicles.foldl (matchStep det.center) none with
  | some q =>
      (q.1,
       ⟨updateAssoc s.tracked_vehicles q.1 ⟨det.center, det.bbox, 0, now⟩,
        s.next_vehicle_id⟩)
  | none =>
      (s.next_vehicle_id,
       ⟨s.tracked_vehicles ++
          [(s.next_vehicle_id, ⟨det.center, det.bbox, 0, now⟩)],
        s.next_vehicle_id + 1⟩)

/-- The `ids_to_remove` list built by `VehicleDetector.cleanup_tracks`
(vehicle_detector.py lines 162-167): the identities of the tracks whose
elapsed time since last_seen exceeds the eviction window. -/
def idsToRemove (s : DetectorState) (now : ℚ) : List ℕ :=
  (s.tracked_vehicles.filter
    (fun p => decide (evictionWindow < now - p.2.last_seen))).map Prod.fst

/-- Embeds `VehicleDetector.cleanup_tracks` (vehicle_detector.py lines
159-170): first collect the identities whose elapsed time exceeds the
eviction window, then delete each of them. -/
def cleanup_tracks (s : DetectorState) (now : ℚ) : DetectorState :=
  ⟨(idsToRemove s now).foldl
     (fun l2 i => l2.filter (fun p => decide (p.1 ≠ i)))
     s.tracked_vehicles,
   s.next_vehicle_id⟩

/-- The per-frame tracking loop of `VehicleDetector.detect_vehicles`
(vehicle_detector.py lines 76-97): each detection of the frame is
assigned an identity in list order, against the state already updated by
the earlier detections of the same frame. -/
def processDetections (s : DetectorState) (dets : List Detection)
    (now : ℚ) : List ℕ × DetectorState :=
  dets.foldl
    (fun acc det =>
      (acc.1 ++ [(assign_tracking_id acc.2 det now).1],
       (assign_tracking_id acc.2 det now).2))
    ([], s)

/-- An identity is a key of an association list exactly when some track
is stored under it. -/
theorem key_mem_iff {l : List (ℕ × Track)} {i : ℕ} :
    i ∈ l.map Prod.fst ↔ ∃ t, (i, t) ∈ l := by
  rw [List.mem_map]
  constructor
  · rintro ⟨p, hp, rfl⟩
    exact ⟨p.2, hp⟩
  · rintro ⟨t, ht⟩
    exact ⟨(i, t), ht, rfl⟩

/-- Unfolding equation of `matchStep` for an empty accumulator. -/
theorem matchStep_none_eq (c : ℤ × ℤ) (p : ℕ × Track) :
    matchStep c none p =
      if dist2 c p.2.center < TRACKING_MAX_DISTANCE ^ 2 then
        some (p.1, dist2 c p.2.center)
      else none := rfl

/-- Unfolding equation of `matchStep` for a held candidate. -/
theorem matchStep_some_eq (c : ℤ × ℤ) (q : ℕ × ℤ) (p : ℕ × Track) :
    matchStep c (some q) p =
      if dist2 c p.2.center < TRACKING_MAX_DISTANCE ^ 2 ∧
         dist2 c p.2.center < q.2 then
        some (p.1, dist2 c p.2.center)
      else some q := rfl

/-- Once the matching fold holds a candidate it never returns to none. -/
theorem matchFold_isSome (c : ℤ × ℤ) :
    ∀ (l : List (ℕ × Track)) (q : ℕ × ℤ),
      l.foldl (matchStep c) (some q) ≠ none := by
  intro l
  induction l with
  | nil => intro q h; exact Option.noConfusion h
  | cons p l ih =>
    intro q
    show l.foldl (matchStep c) (matchStep c (some q) p) ≠ none
    rw [matchStep_some_eq]
    by_cases hc : dist2 c p.2.center < TRACKING_MAX_DISTANCE ^ 2 ∧
        dist2 c p.2.center < q.2
    · rw [if_pos hc]
      exact ih _
    · rw [if_neg hc]
      exact ih _

/-- The matching fold returns none exactly when no live track is within
the distance threshold. -/
theorem matchFold_none_iff (c : ℤ × ℤ) :
    ∀ l : List (ℕ × Track),
      l.foldl (matchStep c) none = none ↔
        ∀ p ∈ l, ¬ dist2 c p.2.center < TRACKING_MAX_DISTANCE ^ 2 := by
  intro l
  induction l with
  | nil => simp
  | cons p l ih =>
    show l.foldl (matchStep c) (matchStep c none p) = none ↔ _
    rw [matchStep_none_eq]
    by_cases hc : dist2 c p.2.center < TRACKING_MAX_DISTANCE ^ 2
    · rw [if_pos hc]
      constructor
      · intro h
        exact absurd h (matchFold_isSome c l _)
      · intro h
        exact absurd hc (h p (List.mem_cons_self p l))
    · rw [if_neg hc, ih]
      constructor
      · intro h q hq
        rcases List.mem_cons.mp hq with rfl | hq2
        · exact hc
        · exact h q hq2
      · intro h q hq
        exact h q (List.mem_cons_of_mem p hq)

/-- Characterization of a successful matching fold: the result either is
the initial accumulator or comes from a track in the list within the
threshold; its distance is minimal among all tracks within the
threshold, and never exceeds the initial accumulator's distance. -/
theorem matchFold_some (c : ℤ × ℤ) :
    ∀ (l : List (ℕ × Track)) (acc : Option (ℕ × ℤ)) (i : ℕ) (d : ℤ),
      l.foldl (matchStep c) acc = some (i, d) →
      (acc = some (i, d) ∨
        ∃ t, (i, t) ∈ l ∧ d = dist2 c t.center ∧
          d < TRACKING_MAX_DISTANCE ^ 2) ∧
      (∀ p ∈ l, dist2 c p.2.center < TRACKING_MAX_DISTANCE ^ 2 →
        d ≤ dist2 c p.2.center) ∧
      (∀ j e, acc = some (j, e) → d ≤ e) := by
  intro l
  induction l with
  | nil =>
    intro acc i d h
    simp only [List.foldl_nil] at h
    refine ⟨Or.inl h, by simp, ?_⟩
    intro j e he
    rw [h] at he
    obtain ⟨h1, h2⟩ : i = j ∧ d = e := by simpa using he
    exact le_of_eq h2
  | cons p l ih =>
    intro acc i d h
    simp only [List.foldl_cons] at h
    obtain ⟨hprov, hmin, hprev⟩ := ih (matchStep c acc p) i d h
    cases acc with
    | none =>
      rw [matchStep_none_eq] at hprov hprev
      by_cases hc : dist2 c p.2.center < TRACKING_MAX_DISTANCE ^ 2
      · rw [if_pos hc] at hprov hprev
        have hdp : d ≤ dist2 c p.2.center := hprev p.1 (dist2 c p.2.center) rfl
        refine ⟨?_, ?_, ?_⟩
        · rcases hprov with heq | ⟨t, ht, hdt, hlt⟩
          · obtain ⟨h1, h2⟩ : p.1 = i ∧ dist2 c p.2.center = d := by simpa using heq
            subst h1
            subst h2
            exact Or.inr ⟨p.2, List.mem_cons_self p l, rfl, hc⟩
          · exact Or.inr ⟨t, List.mem_cons_of_mem p ht, hdt, hlt⟩
        · intro q hq hqc
          rcases List.mem_cons.mp hq with rfl | hq2
          · exact hdp
          · exact hmin q hq2 hqc
        · intro j e he
          exact Option.noConfusion he
      · rw [if_neg hc] at hprov hprev
        refine ⟨?_, ?_, ?_⟩
        · rcases hprov with heq | ⟨t, ht, hdt, hlt⟩
          · exact Option.noConfusion heq
          · exact Or.inr ⟨t, List.mem_cons_of_mem p ht, hdt, hlt⟩
        · intro q hq hqc
          rcases List.mem_cons.mp hq with rfl | hq2
          · exact absurd hqc hc
          · exact hmin q hq2 hqc
        · intro j e he
          exact Option.noConfusion he
    | some q0 =>
      rw [matchStep_some_eq] at hprov hprev
      by_cases hc : dist2 c p.2.center < TRACKING_MAX_DISTANCE ^ 2 ∧
          dist2 c p.2.center < q0.2
      · rw [if_pos hc] at hprov hprev
        have hdp : d ≤ dist2 c p.2.center := hprev p.1 (dist2 c p.2.center) rfl
        refine ⟨?_, ?_, ?_⟩
        · rcases hprov with heq | ⟨t, ht, hdt, hlt⟩
          · obtain ⟨h1, h2⟩ : p.1 = i ∧ dist2 c p.2.center = d := by simpa using heq
            subst h1
            subst h2
            exact Or.inr ⟨p.2, List.mem_cons_self p l, rfl, hc.1⟩
          · exact Or.inr ⟨t, List.mem_cons_of_mem p ht, hdt, hlt⟩
        · intro q hq hqc
          rcases List.mem_cons.mp hq with rfl | hq2
          · exact hdp
          · exact hmin q hq2 hqc
        · intro j e he
          have he2 : q0 = (j, e) := by simpa using he
          have hlt2 : d < q0.2 := lt_of_le_of_lt hdp hc.2
          rw [he2] at hlt2
          exact le_of_lt hlt2
      · rw [if_neg hc] at hprov hprev
        refine ⟨?_, ?_, ?_⟩
        · rcases hprov with heq | ⟨t, ht, hdt, hlt⟩
          · exact Or.inl heq
          · exact Or.inr ⟨t, List.mem_cons_of_mem p ht, hdt, hlt⟩
        · intro q hq hqc
          rcases List.mem_cons.mp hq with rfl | hq2
          · have h1 : ¬ dist2 c q.2.center < q0.2 := fun hlt3 => hc ⟨hqc, hlt3⟩
            have h2 : d ≤ q0.2 := hprev q0.1 q0.2 rfl
            omega
          · exact hmin q hq2 hqc
        · intro j e he
          exact hprev j e he

/-- Replacing the value stored under an existing key keeps the updated
pair in the table. -/
theorem updateAssoc_mem {l : List (ℕ × Track)} {i : ℕ} {t : Track} (u : Track)
    (h : (i, t) ∈ l) : (i, u) ∈ updateAssoc l i u := by
  have heq : (fun p : ℕ × Track => if p.1 = i then (p.1, u) else p) (i, t) =
      (i, u) := by simp
  rw [updateAssoc, ← heq]
  exact List.mem_map_of_mem _ h

/-- `updateAssoc` leaves the key sequence unchanged. -/
theorem updateAssoc_keys (l : List (ℕ × Track)) (i : ℕ) (u : Track) :
    (updateAssoc l i u).map Prod.fst = l.map Prod.fst := by
  unfold updateAssoc
  rw [List.map_map]
  apply List.map_congr_left
  intro p hp
  by_cases h : p.1 = i
  · simp [Function.comp, h]
  · simp [Function.comp, h]

/-- Every member of the updated table has the key of some member of the
original table. -/
theorem updateAssoc_mem_rev {l : List (ℕ × Track)} {i : ℕ} {u : Track}
    {p : ℕ × Track} (h : p ∈ updateAssoc l i u) :
    ∃ q ∈ l, q.1 = p.1 := by
  unfold updateAssoc at h
  obtain ⟨q, hq, hfq⟩ := List.mem_map.mp h
  refine ⟨q, hq, ?_⟩
  by_cases hqi : q.1 = i
  · rw [if_pos hqi] at hfq
    rw [← hfq]
  · rw [if_neg hqi] at hfq
    rw [← hfq]

/-- Deleting a list of identities one by one is filtering by
non-membership of the identity list. -/
theorem foldl_erase_eq_filter :
    ∀ (ids : List ℕ) (l : List (ℕ × Track)),
      ids.foldl (fun l2 i => l2.filter (fun p => decide (p.1 ≠ i))) l =
        l.filter (fun p => decide (p.1 ∉ ids)) := by
  intro ids
  induction ids with
  | nil =>
    intro l
    simp
  | cons i ids ih =>
    intro l
    simp only [List.foldl_cons]
    rw [ih, List.filter_filter]
    apply List.filter_congr
    intro p hp
    by_cases h1 : p.1 = i <;> by_cases h2 : p.1 ∈ ids <;>
      simp [h1, h2, List.mem_cons]

/-- In a table with pairwise-distinct keys, a key determines the entry. -/
theorem assoc_key_inj :
    ∀ {l : List (ℕ × Track)}, (l.map Prod.fst).Nodup →
      ∀ {p q : ℕ × Track}, p ∈ l → q ∈ l → p.1 = q.1 → p = q := by
  intro l
  induction l with
  | nil =>
    intro _ p q hp
    exact absurd hp (List.not_mem_nil p)
  | cons a l ih =>
    intro hnd p q hp hq hk
    rw [List.map_cons, List.nodup_cons] at hnd
    rcases List.mem_cons.mp hp with rfl | hp2
    · rcases List.mem_cons.mp hq with rfl | hq2
      · rfl
      · exact absurd (hk ▸ List.mem_map_of_mem Prod.fst hq2) hnd.1
    · rcases List.mem_cons.mp hq with rfl | hq2
      · exact absurd (hk ▸ List.mem_map_of_mem Prod.fst hp2) hnd.1
      · exact ih hnd.2 hp2 hq2 hk

/-- Updating one entry never removes an identity from the table. -/
theorem updateAssoc_key_mem (l : List (ℕ × Track)) (i : ℕ) (u : Track)
    {p : ℕ × Track} (hp : p ∈ l) : ∃ t, (p.1, t) ∈ updateAssoc l i u := by
  apply key_mem_iff.mp
  rw [updateAssoc_keys]
  exact List.mem_map_of_mem Prod.fst hp

/-- Claim C4: a detection is matched to the nearest live track strictly
within the 50-pixel threshold, whose stored center, bbox and last-seen
time are then replaced by the detection's; with no track within the
threshold, a fresh identity equal to the counter is allocated and the
counter becomes its successor.  Concretely, from a fresh tracker a
detection at (100,100) followed by one at (105,102) receives the same
identity 0, while (100,100) followed by (500,500) receives the distinct
identities 0 and 1. -/
theorem assign_tracking_id_nearest_or_fresh (s : DetectorState)
    (det : Detection) (now : ℚ) :
    ((∃ p ∈ s.tracked_vehicles,
        dist2 det.center p.2.center < TRACKING_MAX_DISTANCE ^ 2) →
      ∃ t, ((assign_tracking_id s det now).1, t) ∈ s.tracked_vehicles ∧
        dist2 det.center t.center < TRACKING_MAX_DISTANCE ^ 2 ∧
        (∀ p ∈ s.tracked_vehicles,
          dist2 det.center p.2.center < TRACKING_MAX_DISTANCE ^ 2 →
          dist2 det.center t.center ≤ dist2 det.center p.2.center) ∧
        ((assign_tracking_id s det now).1,
          (⟨det.center, det.bbox, 0, now⟩ : Track)) ∈
          (assign_tracking_id s det now).2.tracked_vehicles ∧
        (assign_tracking_id s det now).2.next_vehicle_id =
          s.next_vehicle_id) ∧
    ((∀ p ∈ s.tracked_vehicles,
        ¬ dist2 det.center p.2.center < TRACKING_MAX_DISTANCE ^ 2) →
      (assign_tracking_id s det now).1 = s.next_vehicle_id ∧
      (assign_tracking_id s det now).2.next_vehicle_id =
        s.next_vehicle_id + 1 ∧
      (s.next_vehicle_id, (⟨det.center, det.bbox, 0, now⟩ : Track)) ∈
        (assign_tracking_id s det now).2.tracked_vehicles) ∧
    (assign_tracking_id initDetectorState
      ⟨(100, 100), [90, 90, 110, 110]⟩ 1).1 = 0 ∧
    (assign_tracking_id
      (assign_tracking_id initDetectorState
        ⟨(100, 100), [90, 90, 110, 110]⟩ 1).2
      ⟨(105, 102), [95, 92, 115, 112]⟩ 2).1 = 0 ∧
    (assign_tracking_id
      (assign_tracking_id initDetectorState
        ⟨(100, 100), [90, 90, 110, 110]⟩ 1).2
      ⟨(500, 500), [490, 490, 510, 510]⟩ 2).1 = 1 := by
  refine ⟨?_, ?_, by decide, by decide, by decide⟩
  · rintro ⟨p0, hp0, hc0⟩
    cases hfold : s.tracked_vehicles.foldl (matchStep det.center) none with
    | none =>
      rw [matchFold_none_iff] at hfold
      exact absurd hc0 (hfold p0 hp0)
    | some q =>
      obtain ⟨hprov, hmin, -⟩ :=
        matchFold_some det.center s.tracked_vehicles none q.1 q.2
          (by rw [hfold])
      rcases hprov with habs | ⟨t, ht, hdt, hlt⟩
      · exact Option.noConfusion habs
      have hassign : assign_tracking_id s det now =
          (q.1,
           ⟨updateAssoc s.tracked_vehicles q.1 ⟨det.center, det.bbox, 0, now⟩,
            s.next_vehicle_id⟩) := by
        unfold assign_tracking_id
        rw [hfold]
      rw [hassign]
      refine ⟨t, ht, ?_, ?_, updateAssoc_mem _ ht, rfl⟩
      · rw [← hdt]
        exact hlt
      · intro p hp hpc
        rw [← hdt]
        exact hmin p hp hpc
  · intro hall
    have hfold : s.tracked_vehicles.foldl (matchStep det.center) none = none :=
      (matchFold_none_iff det.center s.tracked_vehicles).mpr hall
    have hassign : assign_tracking_id s det now =
        (s.next_vehicle_id,
         ⟨s.tracked_vehicles ++
            [(s.next_vehicle_id, ⟨det.center, det.bbox, 0, now⟩)],
          s.next_vehicle_id + 1⟩) := by
      unfold assign_tracking_id
      rw [hfold]
    rw [hassign]
    exact ⟨rfl, rfl, List.mem_append_right _ (List.mem_singleton_self _)⟩

/-- A one-track state used to instantiate the tracker theorems. -/
def exTrack : Track := ⟨(100, 100), [90, 90, 110, 110], 0, 1⟩

/-- A tracker state holding only `exTrack` under identity 0. -/
def exState : DetectorState := ⟨[(0, exTrack)], 1⟩

/-- A detection close to `exTrack`. -/
def exDet : Detection := ⟨(105, 102), [95, 92, 115, 112]⟩

/-- Witness for C4: matching `exDet` against `exState`. -/
theorem assign_tracking_id_nearest_or_fresh_witness :
    ∃ t, ((assign_tracking_id exState exDet 2).1, t) ∈
        exState.tracked_vehicles ∧
      dist2 exDet.center t.center < TRACKING_MAX_DISTANCE ^ 2 ∧
      (∀ p ∈ exState.tracked_vehicles,
        dist2 exDet.center p.2.center < TRACKING_MAX_DISTANCE ^ 2 →
        dist2 exDet.center t.center ≤ dist2 exDet.center p.2.center) ∧
      ((assign_tracking_id exState exDet 2).1,
        (⟨exDet.center, exDet.bbox, 0, 2⟩ : Track)) ∈
        (assign_tracking_id exState exDet 2).2.tracked_vehicles ∧
      (assign_tracking_id exState exDet 2).2.next_vehicle_id =
        exState.next_vehicle_id :=
  (assign_tracking_id_nearest_or_fresh exState exDet 2).1
    ⟨(0, exTrack), by decide, by decide⟩

/-- The deletion loop of cleanup equals filtering by the kept condition,
given pairwise-distinct identities. -/
theorem cleanup_tracks_eq_filter (s : DetectorState) (now : ℚ)
    (hnd : (s.tracked_vehicles.map Prod.fst).Nodup) :
    (cleanup_tracks s now).tracked_vehicles =
      s.tracked_vehicles.filter
        (fun p => decide (now - p.2.last_seen ≤ evictionWindow)) := by
  show (idsToRemove s now).foldl
      (fun l2 i => l2.filter (fun p => decide (p.1 ≠ i)))
      s.tracked_vehicles = _
  rw [foldl_erase_eq_filter]
  apply List.filter_congr
  intro p hp
  have hmem : p.1 ∈ idsToRemove s now ↔
      evictionWindow < now - p.2.last_seen := by
    constructor
    · intro h
      obtain ⟨q, hq, hqk⟩ := List.mem_map.mp h
      obtain ⟨hql, hqc⟩ := List.mem_filter.mp hq
      have : q = p := assoc_key_inj hnd hql hp hqk
      rw [this] at hqc
      exact of_decide_eq_true hqc
    · intro h
      apply List.mem_map_of_mem Prod.fst
      exact List.mem_filter.mpr ⟨hp, decide_eq_true h⟩
  have hiff : (p.1 ∉ idsToRemove s now) ↔
      (now - p.2.last_seen ≤ evictionWindow) := by
    rw [hmem]
    exact not_lt
  exact decide_eq_decide.mpr hiff

/-- Claim C5: cleanup removes exactly the live tracks whose elapsed time
since last_seen exceeds the eviction window, leaving the others (and the
identity counter) unchanged; a stale track's identity is absent from the
table afterwards; and the detection-assignment operation never destroys
a track, so cleanup is the only destroying operation. -/
theorem cleanup_tracks_evicts_stale (s : DetectorState) (now : ℚ)
    (hnd : (s.tracked_vehicles.map Prod.fst).Nodup) :
    (cleanup_tracks s now).tracked_vehicles =
      s.tracked_vehicles.filter
        (fun p => decide (now - p.2.last_seen ≤ evictionWindow)) ∧
    (cleanup_tracks s now).next_vehicle_id = s.next_vehicle_id ∧
    (∀ p ∈ s.tracked_vehicles, evictionWindow < now - p.2.last_seen →
      ∀ t : Track, (p.1, t) ∉ (cleanup_tracks s now).tracked_vehicles) ∧
    (∀ (det : Detection) (tn : ℚ), ∀ p ∈ s.tracked_vehicles,
      ∃ t : Track, (p.1, t) ∈ (assign_tracking_id s det tn).2.tracked_vehicles) := by
  refine ⟨cleanup_tracks_eq_filter s now hnd, rfl, ?_, ?_⟩
  · intro p hp hstale t hmem
    rw [cleanup_tracks_eq_filter s now hnd] at hmem
    obtain ⟨hml, hmc⟩ := List.mem_filter.mp hmem
    have heq : (p.1, t) = p := assoc_key_inj hnd hml hp rfl
    rw [heq] at hmc
    have : now - p.2.last_seen ≤ evictionWindow := of_decide_eq_true hmc
    exact absurd hstale (not_lt.mpr this)
  · intro det tn p hp
    cases hfold : s.tracked_vehicles.foldl (matchStep det.center) none with
    | some q =>
      have hassign : assign_tracking_id s det tn =
          (q.1,
           ⟨updateAssoc s.tracked_vehicles q.1 ⟨det.center, det.bbox, 0, tn⟩,
            s.next_vehicle_id⟩) := by
        unfold assign_tracking_id
        rw [hfold]
      rw [hassign]
      exact updateAssoc_key_mem s.tracked_vehicles q.1 _ hp
    | none =>
      have hassign : assign_tracking_id s det tn =
          (s.next_vehicle_id,
           ⟨s.tracked_vehicles ++
              [(s.next_vehicle_id, ⟨det.center, det.bbox, 0, tn⟩)],
            s.next_vehicle_id + 1⟩) := by
        unfold assign_tracking_id
        rw [hfold]
      rw [hassign]
      exact ⟨p.2, List.mem_append_left _ hp⟩

/-- Witness for C5 on a state holding one fresh and one stale track. -/
theorem cleanup_tracks_evicts_stale_witness :
    (cleanup_tracks ⟨[(0, ⟨(100, 100), [90, 90, 110, 110], 0, 1⟩),
                      (1, ⟨(300, 300), [290, 290, 310, 310], 0, 5⟩)], 2⟩
        6).tracked_vehicles =
      [(0, ⟨(100, 100), [90, 90, 110, 110], 0, 1⟩),
       (1, ⟨(300, 300), [290, 290, 310, 310], 0, 5⟩)].filter
        (fun p => decide ((6 : ℚ) - p.2.last_seen ≤ evictionWindow)) :=
  (cleanup_tracks_evicts_stale
    ⟨[(0, ⟨(100, 100), [90, 90, 110, 110], 0, 1⟩),
      (1, ⟨(300, 300), [290, 290, 310, 310], 0, 5⟩)], 2⟩ 6 (by decide)).1

/-- Claim C6: both tracker operations preserve the invariant that every
live identity is strictly below the `next_vehicle_id` counter, the
counter never decreases, cleanup leaves it unchanged, and an identity
below the counter that is no longer (or never was) in the table — in
particular an evicted identity — is never the identity of a track after
an assignment. -/
theorem track_id_monotone_unique (s : DetectorState) (det : Detection)
    (now cnow : ℚ) (j : ℕ)
    (hinv : ∀ p ∈ s.tracked_vehicles, p.1 < s.next_vehicle_id) :
    (∀ p ∈ (assign_tracking_id s det now).2.tracked_vehicles,
        p.1 < (assign_tracking_id s det now).2.next_vehicle_id) ∧
    s.next_vehicle_id ≤ (assign_tracking_id s det now).2.next_vehicle_id ∧
    (∀ p ∈ (cleanup_tracks s cnow).tracked_vehicles,
        p.1 < (cleanup_tracks s cnow).next_vehicle_id) ∧
    (cleanup_tracks s cnow).next_vehicle_id = s.next_vehicle_id ∧
    (j < s.next_vehicle_id → (∀ t : Track, (j, t) ∉ s.tracked_vehicles) →
      ∀ t : Track, (j, t) ∉ (assign_tracking_id s det now).2.tracked_vehicles) := by
  have hclean_sub : ∀ p ∈ (cleanup_tracks s cnow).tracked_vehicles,
      p ∈ s.tracked_vehicles := by
    intro p hp
    have heq : (cleanup_tracks s cnow).tracked_vehicles =
        s.tracked_vehicles.filter
          (fun p => decide (p.1 ∉ idsToRemove s cnow)) := by
      show (idsToRemove s cnow).foldl _ s.tracked_vehicles = _
      exact foldl_erase_eq_filter (idsToRemove s cnow) s.tracked_vehicles
    rw [heq] at hp
    exact (List.mem_filter.mp hp).1
  cases hfold : s.tracked_vehicles.foldl (matchStep det.center) none with
  | some q =>
    have hassign : assign_tracking_id s det now =
        (q.1,
         ⟨updateAssoc s.tracked_vehicles q.1 ⟨det.center, det.bbox, 0, now⟩,
          s.next_vehicle_id⟩) := by
      unfold assign_tracking_id
      rw [hfold]
    rw [hassign]
    refine ⟨?_, le_refl _, ?_, rfl, ?_⟩
    · intro p hp
      obtain ⟨q2, hq2, hq2k⟩ := updateAssoc_mem_rev hp
      rw [← hq2k]
      exact hinv q2 hq2
    · intro p hp
      exact hinv p (hclean_sub p hp)
    · intro hj hnot t hmem
      obtain ⟨q2, hq2, hq2k⟩ := updateAssoc_mem_rev hmem
      have h2 : (q2.1, q2.2) ∈ s.tracked_vehicles := hq2
      rw [hq2k] at h2
      exact hnot q2.2 h2
  | none =>
    have hassign : assign_tracking_id s det now =
        (s.next_vehicle_id,
         ⟨s.tracked_vehicles ++
            [(s.next_vehicle_id, ⟨det.center, det.bbox, 0, now⟩)],
          s.next_vehicle_id + 1⟩) := by
      unfold assign_tracking_id
      rw [hfold]
    rw [hassign]
    refine ⟨?_, Nat.le_succ _, ?_, rfl, ?_⟩
    · intro p hp
      rcases List.mem_append.mp hp with hp2 | hp2
      · have := hinv p hp2
        show p.1 < s.next_vehicle_id + 1
        omega
      · have : p = (s.next_vehicle_id, ⟨det.center, det.bbox, 0, now⟩) :=
          List.mem_singleton.mp hp2
        rw [this]
        exact Nat.lt_succ_self _
    · intro p hp
      exact hinv p (hclean_sub p hp)
    · intro hj hnot t hmem
      rcases List.mem_append.mp hmem with hm2 | hm2
      · exact hnot t hm2
      · have : (j, t) = (s.next_vehicle_id, ⟨det.center, det.bbox, 0, now⟩) :=
          List.mem_singleton.mp hm2
        have hj2 : j = s.next_vehicle_id := congrArg Prod.fst this
        omega

/-- Witness for C6: identity 1 is below the counter 3 and absent from
the table (evicted earlier), and an assignment never recreates it. -/
theorem track_id_monotone_unique_witness :
    (1, exTrack) ∉ (assign_tracking_id ⟨[(0, exTrack)], 3⟩
      ⟨(500, 500), [490, 490, 510, 510]⟩ 3).2.tracked_vehicles :=
  (track_id_monotone_unique ⟨[(0, exTrack)], 3⟩
      ⟨(500, 500), [490, 490, 510, 510]⟩ 3 3 1
      (by decide)).2.2.2.2 (by decide) (fun t ht => by simp at ht) exTrack

/-- Claim C10: two distinct detections in one tracking call can receive
the same track identity, because a matched track's center is replaced in
place immediately: here the second detection is matched to track 0 only
through the first detection's update (it lies beyond the threshold from
the track's original center), and the de-duplicated identity count 1
undercounts the 2 detections. -/
theorem same_frame_duplicate_id :
    (processDetections ⟨[(0, ⟨(100, 100), [90, 90, 110, 110], 0, 1⟩)], 1⟩
        [⟨(140, 100), [130, 90, 150, 110]⟩, ⟨(180, 100), [170, 90, 190, 110]⟩]
        2).1 = [0, 0] ∧
    (⟨(140, 100), [130, 90, 150, 110]⟩ : Detection) ≠
      ⟨(180, 100), [170, 90, 190, 110]⟩ ∧
    ((processDetections ⟨[(0, ⟨(100, 100), [90, 90, 110, 110], 0, 1⟩)], 1⟩
        [⟨(140, 100), [130, 90, 150, 110]⟩, ⟨(180, 100), [170, 90, 190, 110]⟩]
        2).1.dedup.length <
      ([⟨(140, 100), [130, 90, 150, 110]⟩,
        ⟨(180, 100), [170, 90, 190, 110]⟩] : List Detection).length) ∧
    ¬ dist2 (180, 100) (100, 100) < TRACKING_MAX_DISTANCE ^ 2 := by
  decide
